import Mathlib

/-!
Verification of the `TransientObject` class of `calibrate_spectra`
(`src/transientSources/transients.py`, with a near-duplicate legacy copy in
`src/transients/transients.py`).

The Python class is shallowly embedded below.  Conventions:

* a 2-D numpy array of spectral data (one row per wavelength sample, columns
  `wavelength, flux`) is a `Spectrum := List (ℚ × ℚ)`;
* floating point values are modelled as rationals;
* a Python exception is an explicit `Except PyErr` result (`IndexError`,
  `TypeError`, `KeyError`, `ValueError`), and a function that can raise
  returns `Except PyErr α` (or `Option` when only one error kind can occur);
* the external collaborators (`glob.glob`, `ascii.read`, the
  `sncosmo.TimeSeriesSource.peakphase` query) are abstracted as function
  parameters, since they are external libraries, not code of this repository;
* `print` diagnostics are reified as a returned `List Diag`.
-/

set_option maxRecDepth 4000

deriving instance DecidableEq for Except

namespace CalibrateSpectra

/-- Python exception kinds raised by the code paths under study. -/
inductive PyErr where
  | indexError
  | typeError
  | keyError
  | valueError
  deriving DecidableEq, Repr

/-- A 2-column spectral table: each element is one row `(wavelength, flux)`,
mirroring the 2-D `np.ndarray`s with columns wavelength and flux. -/
abbrev Spectrum := List (ℚ × ℚ)

/-- Column 0 of a spectral table (`arr[:, 0]`): the wavelength grid. -/
def waveCol (sp : Spectrum) : List ℚ :=
  sp.map Prod.fst

/-- Column 1 of a spectral table (`arr[:, 1]`): the flux values. -/
def fluxCol (sp : Spectrum) : List ℚ :=
  sp.map Prod.snd

/-- Model of `np.allclose(wave, firstwave)` with the default tolerances
`rtol = 1e-5`, `atol = 1e-8`; the source only calls it on equal-length
arrays (it checks lengths first), so elementwise zip is exact. -/
def npAllclose (a b : List ℚ) : Bool :=
  (a.zip b).all fun p => decide (|p.1 - p.2| ≤ 1 / 100000000 + 1 / 100000 * |p.2|)

/-- Diagnostics printed by `validateWavelengths`; the source prints the index
pair `(0, i)`, the first component being the constant `0` of `firstwave`. -/
inductive Diag where
  | diffLengths (i : ℕ)
  | diffValues (i : ℕ)
  | matched (i : ℕ)
  deriving DecidableEq, Repr

/-- Diagnostic block of one loop iteration of `validateWavelengths`:
length check first, then `np.allclose`, then the verbose-only confirmation. -/
def diagAt (firstwave : List ℚ) (verbose : Bool) (i : ℕ) (sp : Spectrum) :
    List Diag :=
  if (waveCol sp).length ≠ firstwave.length then [Diag.diffLengths i]
  else if ¬ npAllclose (waveCol sp) firstwave then [Diag.diffValues i]
  else if verbose then [Diag.matched i] else []

/-- The `for i, mangledSpectra in enumerate(self.mangled_spectra)` loop of
`validateWavelengths`, carrying the running index `i`. -/
def validateFrom (firstwave : List ℚ) (verbose : Bool) :
    ℕ → List Spectrum → List Diag
  | _, [] => []
  | i, sp :: rest =>
      diagAt firstwave verbose i sp ++ validateFrom firstwave verbose (i + 1) rest

/-- Model of `TransientObject.validateWavelengths`: `none` models the
`IndexError` raised by `self.mangled_spectra[0]` on an empty sequence;
otherwise the list of printed diagnostics is returned. -/
def validateWavelengths (mangled_spectra : List Spectrum) (verbose : Bool) :
    Option (List Diag) :=
  match mangled_spectra with
  | [] => none
  | first :: _ =>
      some (validateFrom (waveCol first) verbose 0 mangled_spectra)

/-- Comparison relation underlying `np.argsort(days)` on indices: order by
day value, breaking ties by index (a stable argsort; any argsort of `days`
agrees with it up to tie order, which no claim depends on). -/
def argsortRel (days : List ℚ) (i j : ℕ) : Prop :=
  days.getD i 0 < days.getD j 0 ∨ (days.getD i 0 = days.getD j 0 ∧ i ≤ j)

instance (days : List ℚ) : DecidableRel (argsortRel days) := fun i j => by
  unfold argsortRel
  infer_instance

instance (days : List ℚ) : IsTotal ℕ (argsortRel days) where
  total i j := by
    rcases lt_trichotomy (days.getD i 0) (days.getD j 0) with h | h | h
    · exact Or.inl (Or.inl h)
    · rcases Nat.le_total i j with hij | hij
      · exact Or.inl (Or.inr ⟨h, hij⟩)
      · exact Or.inr (Or.inr ⟨h.symm, hij⟩)
    · exact Or.inr (Or.inl h)

instance (days : List ℚ) : IsTrans ℕ (argsortRel days) where
  trans a b c hab hbc := by
    rcases hab with h1 | ⟨e1, l1⟩
    · rcases hbc with h2 | ⟨e2, l2⟩
      · exact Or.inl (h1.trans h2)
      · exact Or.inl (e2 ▸ h1)
    · rcases hbc with h2 | ⟨e2, l2⟩
      · exact Or.inl (e1 ▸ h2)
      · exact Or.inr ⟨e1.trans e2, l1.trans l2⟩

/-- Model of `np.argsort(days)`: the permutation of `[0, …, len(days) - 1]`
that sorts `days` ascending. -/
def npArgsort (days : List ℚ) : List ℕ :=
  List.insertionSort (argsortRel days) (List.range days.length)

/-- Numpy fancy indexing `arr[idxs]` on a 1-D array: `none` models the
`IndexError` raised when some index is out of range. -/
def pyFancyIndex (arr : List α) (idxs : List ℕ) : Option (List α) :=
  idxs.mapM fun i => arr.get? i

/-- Fancy indexing of an `np.ndarray` argument, as an exception result. -/
def npSubscript (arr : List α) (idxs : List ℕ) : Except PyErr (List α) :=
  match pyFancyIndex arr idxs with
  | none => .error .indexError
  | some r => .ok r

/-- Subscripting an optional argument, as in `data_fnames[self.sortOrder]`
where `data_fnames` defaults to `None`: subscripting `None` raises
`TypeError`, otherwise fancy indexing applies. -/
def optSubscript (o : Option (List String)) (idxs : List ℕ) :
    Except PyErr (List String) :=
  match o with
  | none => .error .typeError
  | some l => npSubscript l idxs

/-- State of a constructed `TransientObject`. -/
structure TransientObject where
  name : String
  sortOrder : List ℕ
  data_fnames : List String
  mangled_fnames : List String
  spectral_data : List Spectrum
  mangled_spectra : List Spectrum
  mjds : List ℚ
  phasePeak : Option ℚ
  deriving DecidableEq, Repr

/-- Model of `TransientObject.__init__`: the sort permutation of `days` is
computed once and applied to the five parallel arrays in source order
(`data_fnames`, `mangled_fnames`, `spectral_data`, `matched_spectra`,
`days`), `_phasePeak` starts as `None`, and `validateWavelengths` runs with
`verbose=False`; its printed diagnostics are returned alongside the object. -/
def TransientObject.init (name : String)
    (spectral_data matched_spectra : List Spectrum) (days : List ℚ)
    (data_fnames mangled_fnames : Option (List String)) :
    Except PyErr (TransientObject × List Diag) :=
  let sortOrder := npArgsort days
  match optSubscript data_fnames sortOrder with
  | .error e => .error e
  | .ok df =>
    match optSubscript mangled_fnames sortOrder with
    | .error e => .error e
    | .ok mf =>
      match npSubscript spectral_data sortOrder with
      | .error e => .error e
      | .ok sd =>
        match npSubscript matched_spectra sortOrder with
        | .error e => .error e
        | .ok ms =>
          match npSubscript days sortOrder with
          | .error e => .error e
          | .ok mj =>
            match validateWavelengths ms false with
            | none => .error .indexError
            | some diags =>
                .ok (⟨name, sortOrder, df, mf, sd, ms, mj, none⟩, diags)

/-- The data handed to `sncosmo.TimeSeriesSource(phase=…, wave=…, flux=…,
name=…)`, an external collaborator; only its construction arguments matter
here. -/
structure TimeSeriesSource where
  phase : List ℚ
  wave : List ℚ
  flux : List (List ℚ)
  name : Option String
  deriving DecidableEq, Repr

/-- The row-assignment loop `for i, fluxdata in enumerate(self.mangled_spectra):
fluxarray[i] = fluxdata[:, 1]` over a zero matrix with `rowsLeft` rows of
`cols` zeros each: writing past the last row raises `IndexError`, a
row-length mismatch raises `ValueError` (numpy length-1 broadcasting is not
modelled; no spectrum in the claims has a single row), and rows never
written stay zero. -/
def assignRows (cols : ℕ) : ℕ → List Spectrum → Except PyErr (List (List ℚ))
  | rowsLeft, [] => .ok (List.replicate rowsLeft (List.replicate cols 0))
  | rowsLeft, sp :: rest =>
      match rowsLeft with
      | 0 => .error .indexError
      | n + 1 =>
          if sp.length = cols then
            match assignRows cols n rest with
            | .error e => .error e
            | .ok m => .ok (fluxCol sp :: m)
          else .error .valueError

/-- Construction of `fluxarray` in the `SNCosmoSource` property:
`np.zeros(shape=(len(self.mjds), len(self.mangled_spectra[0])))` (whose
`self.mangled_spectra[0]` raises `IndexError` on an empty sequence) followed
by the row-assignment loop. -/
def buildFluxArray (mjds : List ℚ) (spectra : List Spectrum) :
    Except PyErr (List (List ℚ)) :=
  match spectra with
  | [] => .error .indexError
  | first :: _ => assignRows first.length mjds.length spectra

/-- Flux matrix of an object, defaulting to `[]` on an exception; used only
to state which value the peak-phase query is invoked on. -/
def fluxArrayD (obj : TransientObject) : List (List ℚ) :=
  match buildFluxArray obj.mjds obj.mangled_spectra with
  | .error _ => []
  | .ok f => f

/-- The provisional source built inside `SNCosmoSource` when `phasePeak` is
still `None`: raw (unshifted) days, the first mangled spectrum's wavelength
grid, the flux matrix, and no name. -/
def provisionalSource (obj : TransientObject) (flux : List (List ℚ)) :
    TimeSeriesSource :=
  ⟨obj.mjds, waveCol (obj.mangled_spectra.headD []), flux, none⟩

/-- Model of one access of the `SNCosmoSource` property.  `peakQuery` models
the external `sncosmo` peak-phase query `TimeSeriesSource(…).peakphase
with the fixed band, abstracted as a function of the provisional source.
Returns the constructed source, the object state after the access, and
whether the peak query was invoked. -/
def accessSNCosmoSource (peakQuery : TimeSeriesSource → ℚ)
    (obj : TransientObject) :
    Except PyErr (TimeSeriesSource × TransientObject × Bool) :=
  match buildFluxArray obj.mjds obj.mangled_spectra with
  | .error e => .error e
  | .ok fluxarray =>
    let wave := waveCol (obj.mangled_spectra.headD [])
    match obj.phasePeak with
    | none =>
        let peak := peakQuery (provisionalSource obj fluxarray)
        .ok (⟨obj.mjds.map fun d => d - peak, wave, fluxarray, some obj.name⟩,
             { obj with phasePeak := some peak }, true)
    | some peak =>
        .ok (⟨obj.mjds.map fun d => d - peak, wave, fluxarray, some obj.name⟩,
             obj, false)

/-- Python's `str.lower()` on a character sequence. -/
def pyLower (cs : List Char) : List Char :=
  cs.map Char.toLower

/-- Model of Python's substring test `sub in s`: some suffix of `s` starts
with `sub`. -/
def containsSeq : List Char → List Char → Bool
  | [], sub => sub.isEmpty
  | c :: rest, sub => sub.isPrefixOf (c :: rest) || containsSeq rest sub

/-- One row of a photometry table after `ascii.read(fname,
names=['time','flux','fluxerr'])` and the `band` column assignment. -/
structure PhotRow where
  time : ℚ
  flux : ℚ
  fluxerr : ℚ
  band : String
  deriving DecidableEq, Repr

/-- The default filter mapping built by `photometryTable` when its
`filterDict` argument is `None`. -/
def defaultFilterDict : List (String × String) :=
  [("B", "bessellB"), ("V", "bessellV"), ("r", "bessellR"), ("i", "bessellI")]

/-- Python `dict` lookup `filterDict[filt]`: `none` models the `KeyError`. -/
def lookupDict (dict : List (String × String)) (k : String) : Option String :=
  (dict.find? fun p => p.1 == k).map Prod.snd

/-- Model of `TransientObject.photometryTable`: reads the file (via the
abstracted `ascii.read` collaborator `readFn`, yielding `(time, flux,
fluxerr)` rows) and tags every row with `filterDict[filt]`, raising
`KeyError` on an unmapped band. -/
def photometryTable (readFn : String → List (ℚ × ℚ × ℚ))
    (fname filt : String) (filterDict : Option (List (String × String))) :
    Except PyErr (List PhotRow) :=
  let dict := filterDict.getD defaultFilterDict
  match lookupDict dict filt with
  | none => .error .keyError
  | some band => .ok ((readFn fname).map fun r => ⟨r.1, r.2.1, r.2.2, band⟩)

/-- Files of one band surviving the magnitude-marker exclusion: `globFn`
abstracts `glob.glob(os.path.join(dataDir, filt) + "/*.DAT")`, and a file is
kept when `'_mag' not in filename.lower()`. -/
def survivingFiles (globFn : String → List String) (dataDir filt : String) :
    List String :=
  (globFn (dataDir ++ "/" ++ filt)).filter fun fn =>
    ! containsSeq (pyLower fn.toList) "_mag".toList

/-- Model of `TransientObject.getPhotometry`: per requested band, read every
surviving file into a tagged table; with more than one table the result is
their `vstack` (concatenation), with exactly one table that table, and with
none the subscript `photometryTables[0]` raises `IndexError`. -/
def getPhotometry (globFn : String → List String)
    (readFn : String → List (ℚ × ℚ × ℚ)) (dataDir : String)
    (filterList : List String) : Except PyErr (List PhotRow) :=
  match filterList.mapM (fun filt =>
      (survivingFiles globFn dataDir filt).mapM fun fn =>
        photometryTable readFn fn filt none) with
  | .error e => .error e
  | .ok tss =>
    let photometryTables := tss.flatten
    if photometryTables.length > 1 then .ok photometryTables.flatten
    else
      match photometryTables with
      | [] => .error .indexError
      | t :: _ => .ok t

/-- Digits-to-number accumulator underlying decimal parsing. -/
def digitsToNat (ds : List Char) : ℕ :=
  ds.foldl (fun n c => 10 * n + (c.toNat - 48)) 0

/-- Unsigned body of Python's `float` parser on the decimal forms
`digits`, `digits.digits*`, `.digits+` (the exponent, `inf` and `nan` forms
are outside the model; the parsed filename tokens are plain digit runs):
a leading digit run, optionally followed by a dot and a digit run, at least
one digit in total. -/
def pyFloatBody (cs : List Char) : Option ℚ :=
  let d := cs.takeWhile Char.isDigit
  let r := cs.dropWhile Char.isDigit
  if r.isEmpty then
    if d.isEmpty then none else some (digitsToNat d : ℚ)
  else if r.headD ' ' = '.' then
    if r.tail.all Char.isDigit && ! (d.isEmpty && r.tail.isEmpty) then
      some ((digitsToNat d : ℚ)
        + (digitsToNat r.tail : ℚ) / (10 : ℚ) ^ r.tail.length)
    else none
  else none

/-- One optional leading sign character, as accepted by `float`. -/
def stripSign : List Char → List Char
  | '+' :: rest => rest
  | '-' :: rest => rest
  | cs => cs

/-- Python's `str.strip()`: surrounding whitespace removed. -/
def pyTrim (cs : List Char) : List Char :=
  ((cs.dropWhile Char.isWhitespace).reverse.dropWhile Char.isWhitespace).reverse

/-- Model of Python's `float(s)` builtin on finite decimal literals:
surrounding whitespace is stripped, one leading sign is allowed, and the
body must be a decimal numeral; `none` models the `ValueError`. -/
def pyFloat (s : String) : Option ℚ :=
  match pyTrim s.toList with
  | '+' :: rest => pyFloatBody rest
  | '-' :: rest => (pyFloatBody rest).map Neg.neg
  | cs => pyFloatBody cs

/-- One step bound of `pySplitGo` (the fuel only guards Lean's structural
recursion; it strictly exceeds the scanned length, so the `fuel = 0` arm is
never reached). -/
def pySplitGo (sep : List Char) : ℕ → List Char → List Char →
    List (List Char)
  | 0, _, acc => [acc.reverse]
  | _ + 1, [], acc => [acc.reverse]
  | fuel + 1, c :: rest, acc =>
      if sep.isPrefixOf (c :: rest) then
        acc.reverse :: pySplitGo sep fuel (List.drop sep.length (c :: rest)) []
      else pySplitGo sep fuel rest (c :: acc)

/-- Model of Python's `str.split(sep)` for a nonempty separator: split at
every non-overlapping occurrence, scanning left to right; the result is
never empty. -/
def pySplit (s sep : List Char) : List (List Char) :=
  pySplitGo sep (s.length + 1) s []

/-- Model of `TransientObject.parse_mjds`: split the filename on the
substring `_mangled`, keep the prefix, split it on `_`, and parse the last
token as a float (`str.split` never returns an empty list, so the `headD`
and `getLastD` defaults are dead). -/
def parse_mjds (mangledSpectraFileName : String) : Option ℚ :=
  let s := (pySplit mangledSpectraFileName.toList "_mangled".toList).headD []
  let day := (pySplit s "_".toList).getLastD []
  pyFloat (String.mk day)

/-- The trailing underscore-delimited token before `_mangled` in a
filename — the text `parse_mjds` hands to `float`. -/
def mangledDayToken (fname : String) : String :=
  String.mk ((pySplit ((pySplit fname.toList "_mangled".toList).headD [])
    "_".toList).getLastD [])

/-- Characterization of a numeral body independent of the parser: all
characters are digits or a dot, at most one dot occurs, and at least one
digit occurs. -/
def numericBody (cs : List Char) : Bool :=
  (cs.all (fun c => c.isDigit || c == '.') && decide (cs.count '.' ≤ 1))
    && cs.any Char.isDigit

/-- Specification-level characterization of the strings accepted by the
`float` model: after stripping whitespace and one optional sign, the rest
is a numeral body. -/
def isNumericStr (s : String) : Bool :=
  numericBody (stripSign (pyTrim s.toList))

/-- Read-side operations available on a constructed object (the internal
cache setter `setphasePeak` is the commented-out property setter, exercised
only through the `SNCosmoSource` access it implements). -/
inductive Op where
  | accessSource
  | validate (verbose : Bool)
  | getPhot (globFn : String → List String)
      (readFn : String → List (ℚ × ℚ × ℚ)) (dataDir : String)
      (filterList : List String)

/-- Whether an operation is an access of the `SNCosmoSource` property. -/
def Op.isAccess : Op → Bool
  | .accessSource => true
  | _ => false

/-- Effect of one operation on the pair (object state, number of peak-phase
collaborator invocations so far).  `validateWavelengths` only prints and
`getPhotometry` only reads the filesystem, so both leave the pair unchanged
(as does an access that raises, since the exception propagates before
`setphasePeak` runs). -/
def step (peakQuery : TimeSeriesSource → ℚ) (s : TransientObject × ℕ) :
    Op → TransientObject × ℕ
  | .validate _ => s
  | .getPhot _ _ _ _ => s
  | .accessSource =>
      match accessSNCosmoSource peakQuery s.1 with
      | .error _ => s
      | .ok (_, objNext, invoked) =>
          (objNext, s.2 + if invoked then 1 else 0)

/-- Running a sequence of operations from a given state. -/
def runOps (peakQuery : TimeSeriesSource → ℚ) (s : TransientObject × ℕ)
    (ops : List Op) : TransientObject × ℕ :=
  ops.foldl (step peakQuery) s

/-- The five parallel sequences whose shared sort order the data-model
invariant is about. -/
def parallelFields (o : TransientObject) :
    List ℚ × List Spectrum × List Spectrum × List String × List String :=
  (o.mjds, o.spectral_data, o.mangled_spectra, o.data_fnames, o.mangled_fnames)

/-! ### Supporting lemmas -/

lemma npArgsort_perm (days : List ℚ) :
    (npArgsort days).Perm (List.range days.length) :=
  List.perm_insertionSort _ _

lemma npArgsort_sorted (days : List ℚ) :
    List.Sorted (argsortRel days) (npArgsort days) :=
  List.sorted_insertionSort _ _

lemma mem_npArgsort_lt {days : List ℚ} {i : ℕ} (h : i ∈ npArgsort days) :
    i < days.length := by
  have := (npArgsort_perm days).mem_iff.mp h
  simpa using this

lemma pyFancyIndex_eq_map (arr : List α) (dflt : α) :
    ∀ idxs : List ℕ, (∀ i ∈ idxs, i < arr.length) →
      pyFancyIndex arr idxs = some (idxs.map fun i => arr.getD i dflt)
  | [], _ => rfl
  | i :: idxs, h => by
      have hi : i < arr.length := h i (by simp)
      have ih := pyFancyIndex_eq_map arr dflt idxs fun j hj => h j (by simp [hj])
      simp only [pyFancyIndex, List.mapM_cons] at ih ⊢
      rw [ih, List.get?_eq_get hi]
      simp [List.getD_eq_getElem arr dflt hi, List.get_eq_getElem,
        List.getElem?_eq_getElem hi]

lemma npSubscript_ok_iff {arr : List α} {idxs : List ℕ} {l : List α} :
    npSubscript arr idxs = .ok l ↔ pyFancyIndex arr idxs = some l := by
  unfold npSubscript
  cases h : pyFancyIndex arr idxs <;> simp

lemma init_ok_inv {name : String} {sd ms : List Spectrum} {days : List ℚ}
    {df mf : Option (List String)} {obj : TransientObject} {diags : List Diag}
    (h : TransientObject.init name sd ms days df mf = .ok (obj, diags)) :
    obj.name = name ∧ obj.sortOrder = npArgsort days
    ∧ optSubscript df (npArgsort days) = .ok obj.data_fnames
    ∧ optSubscript mf (npArgsort days) = .ok obj.mangled_fnames
    ∧ npSubscript sd (npArgsort days) = .ok obj.spectral_data
    ∧ npSubscript ms (npArgsort days) = .ok obj.mangled_spectra
    ∧ npSubscript days (npArgsort days) = .ok obj.mjds
    ∧ validateWavelengths obj.mangled_spectra false = some diags
    ∧ obj.phasePeak = none := by
  simp only [TransientObject.init] at h
  split at h
  · injection h
  rename_i df2 hdf
  split at h
  · injection h
  rename_i mf2 hmf
  split at h
  · injection h
  rename_i sd2 hsd
  split at h
  · injection h
  rename_i ms2 hms
  split at h
  · injection h
  rename_i mj2 hmj
  split at h
  · injection h
  rename_i diags2 hval
  injection h with h2
  injection h2 with hobj hdiag
  subst hdiag
  subst hobj
  exact ⟨rfl, rfl, hdf, hmf, hsd, hms, hmj, hval, rfl⟩

lemma argsortRel_le {days : List ℚ} {i j : ℕ} (h : argsortRel days i j) :
    days.getD i 0 ≤ days.getD j 0 := by
  rcases h with h | ⟨h, _⟩
  · exact le_of_lt h
  · exact le_of_eq h

lemma mjds_of_init {days : List ℚ} {mj : List ℚ}
    (h : npSubscript days (npArgsort days) = .ok mj) :
    mj = (npArgsort days).map fun i => days.getD i 0 := by
  rw [npSubscript_ok_iff] at h
  rw [pyFancyIndex_eq_map days 0 (npArgsort days)
        (fun i hi => mem_npArgsort_lt hi)] at h
  exact (Option.some.inj h).symm

lemma mjds_sorted_of_init {days : List ℚ} {mj : List ℚ}
    (h : npSubscript days (npArgsort days) = .ok mj) :
    List.Sorted (· ≤ ·) mj := by
  rw [mjds_of_init h]
  exact (npArgsort_sorted days).map _ fun _ _ hab => argsortRel_le hab

lemma access_parallelFields {q : TimeSeriesSource → ℚ} {obj : TransientObject}
    {src : TimeSeriesSource} {obj2 : TransientObject} {inv : Bool}
    (h : accessSNCosmoSource q obj = .ok (src, obj2, inv)) :
    parallelFields obj2 = parallelFields obj := by
  unfold accessSNCosmoSource at h
  split at h
  · injection h
  split at h
  · injection h with h2
    injection h2 with _ h3
    injection h3 with hobj _
    subst hobj
    rfl
  · injection h with h2
    injection h2 with _ h3
    injection h3 with hobj _
    subst hobj
    rfl

lemma step_parallelFields (q : TimeSeriesSource → ℚ) (s : TransientObject × ℕ)
    (op : Op) : parallelFields (step q s op).1 = parallelFields s.1 := by
  cases op with
  | validate v => rfl
  | getPhot g r d fl => rfl
  | accessSource =>
      unfold step
      cases h : accessSNCosmoSource q s.1 with
      | error e => rfl
      | ok t =>
          obtain ⟨src, obj2, inv⟩ := t
          exact access_parallelFields h

lemma runOps_parallelFields (q : TimeSeriesSource → ℚ) :
    ∀ (ops : List Op) (s : TransientObject × ℕ),
      parallelFields (runOps q s ops).1 = parallelFields s.1
  | [], _ => rfl
  | op :: ops, s => by
      have h1 := step_parallelFields q s op
      have h2 := runOps_parallelFields q ops (step q s op)
      simp only [runOps, List.foldl_cons] at h2 ⊢
      exact h2.trans h1

lemma access_cached {q : TimeSeriesSource → ℚ} {obj : TransientObject}
    {p : ℚ} (h : obj.phasePeak = some p) :
    ∀ n, step q (obj, n) Op.accessSource = (obj, n) := by
  intro n
  unfold step
  cases hb : accessSNCosmoSource q obj with
  | error e => rfl
  | ok t =>
      obtain ⟨src, obj2, inv⟩ := t
      unfold accessSNCosmoSource at hb
      split at hb
      · injection hb
      rw [h] at hb
      simp only at hb
      injection hb with hb2
      injection hb2 with _ hb3
      injection hb3 with hobj hinv
      subst hobj
      subst hinv
      simp

lemma step_cached {q : TimeSeriesSource → ℚ} {obj : TransientObject} {p : ℚ}
    (h : obj.phasePeak = some p) (n : ℕ) (op : Op) :
    step q (obj, n) op = (obj, n) := by
  cases op with
  | validate v => rfl
  | getPhot g r d fl => rfl
  | accessSource => exact access_cached h n

lemma runOps_cached {q : TimeSeriesSource → ℚ} {obj : TransientObject} {p : ℚ}
    (h : obj.phasePeak = some p) :
    ∀ (ops : List Op) (n : ℕ), runOps q (obj, n) ops = (obj, n) := by
  intro ops
  induction ops with
  | nil => intro n; rfl
  | cons op ops ih =>
      intro n
      simp only [runOps, List.foldl_cons, step_cached h n op]
      exact ih n

lemma step_nonaccess {q : TimeSeriesSource → ℚ} {s : TransientObject × ℕ}
    {op : Op} (h : op.isAccess = false) : step q s op = s := by
  cases op with
  | validate v => rfl
  | getPhot g r d fl => rfl
  | accessSource => simp [Op.isAccess] at h

lemma runOps_nonaccess {q : TimeSeriesSource → ℚ} {s : TransientObject × ℕ}
    {ops : List Op} (h : ∀ op ∈ ops, op.isAccess = false) :
    runOps q s ops = s := by
  induction ops with
  | nil => rfl
  | cons op ops ih =>
      simp only [runOps, List.foldl_cons,
        step_nonaccess (h op (by simp))]
      exact ih fun o ho => h o (by simp [ho])

/-! ### Shared concrete fixtures -/

/-- Sample spectrum with two rows on the grid 4000, 5000 Å. -/
def sampleSpecA : Spectrum := [(4000, 1), (5000, 2)]

/-- Second sample spectrum on the same wavelength grid. -/
def sampleSpecB : Spectrum := [(4000, 3), (5000, 4)]

/-- The object produced by constructing from days `[3, 1]` with parallel
arrays `[sampleSpecA, sampleSpecB]`, `["a", "b"]`, `["c", "d"]`: the sort
permutation `[1, 0]` has been applied everywhere. -/
def sampleObj : TransientObject :=
  ⟨"SN", [1, 0], ["b", "a"], ["d", "c"], [sampleSpecB, sampleSpecA],
    [sampleSpecB, sampleSpecA], [1, 3], none⟩

/-! ### Claims -/

/-- C1. Every construction from parallel arrays sorts `days` ascending with
the single permutation `argsort(days)`, applies that same permutation to all
five parallel arrays, and no later operation re-sorts or changes any of the
five sequences. -/
theorem claim1_parallel_sort_invariant (name : String)
    (sd ms : List Spectrum) (days : List ℚ) (df mf : List String)
    (obj : TransientObject) (diags : List Diag)
    (h : TransientObject.init name sd ms days (some df) (some mf) =
      .ok (obj, diags)) :
    obj.sortOrder = npArgsort days
    ∧ obj.sortOrder.Perm (List.range days.length)
    ∧ List.Sorted (· ≤ ·) obj.mjds
    ∧ pyFancyIndex days obj.sortOrder = some obj.mjds
    ∧ pyFancyIndex sd obj.sortOrder = some obj.spectral_data
    ∧ pyFancyIndex ms obj.sortOrder = some obj.mangled_spectra
    ∧ pyFancyIndex df obj.sortOrder = some obj.data_fnames
    ∧ pyFancyIndex mf obj.sortOrder = some obj.mangled_fnames
    ∧ ∀ (q : TimeSeriesSource → ℚ) (n : ℕ) (ops : List Op),
        parallelFields (runOps q (obj, n) ops).1 = parallelFields obj := by
  obtain ⟨hname, hsort, hdf, hmf, hsd, hms, hmj, hval, hpeak⟩ := init_ok_inv h
  rw [hsort]
  exact ⟨rfl, npArgsort_perm days, mjds_sorted_of_init hmj,
    npSubscript_ok_iff.mp hmj, npSubscript_ok_iff.mp hsd,
    npSubscript_ok_iff.mp hms, npSubscript_ok_iff.mp hdf,
    npSubscript_ok_iff.mp hmf,
    fun q n ops => runOps_parallelFields q ops (obj, n)⟩

/-- C1 witness: the construction invariant evaluated on the concrete days
`[3, 1]`, whose sort permutation is `[1, 0]`. -/
theorem claim1_witness :
    sampleObj.sortOrder = npArgsort [3, 1]
    ∧ List.Sorted (· ≤ ·) sampleObj.mjds := by
  have hsort : npArgsort [(3 : ℚ), 1] = [1, 0] := by with_unfolding_all decide
  have h1 : optSubscript (some ["a", "b"]) [1, 0] = .ok ["b", "a"] := by decide
  have h2 : optSubscript (some ["c", "d"]) [1, 0] = .ok ["d", "c"] := by decide
  have h3 : npSubscript [sampleSpecA, sampleSpecB] [1, 0] =
      .ok [sampleSpecB, sampleSpecA] := by decide
  have h5 : npSubscript [(3 : ℚ), 1] [1, 0] = .ok [1, 3] := by decide
  have hval : validateWavelengths [sampleSpecB, sampleSpecA] false = some [] := by
    with_unfolding_all decide
  have h : TransientObject.init "SN" [sampleSpecA, sampleSpecB]
      [sampleSpecA, sampleSpecB] [3, 1] (some ["a", "b"]) (some ["c", "d"]) =
      .ok (sampleObj, []) := by
    simp only [TransientObject.init, hsort, h1, h2, h3, h5, hval, sampleObj]
  have c := claim1_parallel_sort_invariant "SN" [sampleSpecA, sampleSpecB]
    [sampleSpecA, sampleSpecB] [3, 1] ["a", "b"] ["c", "d"] sampleObj [] h
  exact ⟨c.1, c.2.2.1⟩

lemma access_fresh {q : TimeSeriesSource → ℚ} {obj : TransientObject}
    {src : TimeSeriesSource} {obj2 : TransientObject} {inv : Bool}
    (h : obj.phasePeak = none)
    (h2 : accessSNCosmoSource q obj = .ok (src, obj2, inv)) :
    inv = true
    ∧ obj2.phasePeak = some (q (provisionalSource obj (fluxArrayD obj))) := by
  unfold accessSNCosmoSource at h2
  split at h2
  · injection h2
  rename_i f heqb
  rw [h] at h2
  simp only at h2
  injection h2 with h3
  injection h3 with _ h4
  injection h4 with hobj hinv
  subst hobj
  refine ⟨hinv.symm, ?_⟩
  have hf : fluxArrayD obj = f := by
    unfold fluxArrayD
    rw [heqb]
  rw [hf]

lemma assignRows_ok {cols : ℕ} :
    ∀ {rowsLeft : ℕ} {l : List Spectrum} {m : List (List ℚ)},
      assignRows cols rowsLeft l = .ok m →
      m.length = rowsLeft
      ∧ ∀ (i : ℕ) (sp : Spectrum), l.get? i = some sp →
          m.get? i = some (fluxCol sp) := by
  intro rowsLeft l
  induction l generalizing rowsLeft with
  | nil =>
      intro m h
      unfold assignRows at h
      injection h with h2
      subst h2
      refine ⟨List.length_replicate _ _, ?_⟩
      intro i sp hget
      simp at hget
  | cons sp0 rest ih =>
      intro m h
      cases rowsLeft with
      | zero =>
          simp only [assignRows] at h
          injection h
      | succ n =>
          simp only [assignRows] at h
          split at h
          · rename_i hlen
            split at h
            · injection h
            rename_i m2 heq
            injection h with h2
            subst h2
            obtain ⟨ihlen, ihget⟩ := ih heq
            refine ⟨by simp [ihlen], ?_⟩
            intro i sp hget
            cases i with
            | zero =>
                simp only [List.get?] at hget ⊢
                injection hget with hsp
                rw [hsp]
            | succ i =>
                simp only [List.get?] at hget ⊢
                exact ihget i sp hget
          · injection h

lemma buildFluxArray_ok {mjds : List ℚ} {spectra : List Spectrum}
    {m : List (List ℚ)} (h : buildFluxArray mjds spectra = .ok m) :
    m.length = mjds.length
    ∧ ∀ (i : ℕ) (sp : Spectrum), spectra.get? i = some sp →
        m.get? i = some (fluxCol sp) := by
  unfold buildFluxArray at h
  split at h
  · injection h
  exact assignRows_ok h

/-- C5. The peak phase starts unset after every construction; operations
other than a `SNCosmoSource` access leave the state untouched; the first
access invokes the external peak-phase query on the provisional source and
caches its answer; and once `phasePeak` holds a value, every operation
sequence leaves both the object (hence the cached value) and the number of
collaborator invocations unchanged — the unknown-to-known transition is
one-way. -/
theorem claim5_phasePeak_lazy_cache (q : TimeSeriesSource → ℚ) :
    (∀ (name : String) (sd ms : List Spectrum) (days : List ℚ)
        (df mf : Option (List String)) (obj : TransientObject)
        (diags : List Diag),
        TransientObject.init name sd ms days df mf = .ok (obj, diags) →
        obj.phasePeak = none)
    ∧ (∀ (s : TransientObject × ℕ) (ops : List Op),
        (∀ op ∈ ops, op.isAccess = false) → runOps q s ops = s)
    ∧ (∀ (obj : TransientObject) (src : TimeSeriesSource)
        (obj2 : TransientObject) (inv : Bool), obj.phasePeak = none →
        accessSNCosmoSource q obj = .ok (src, obj2, inv) →
        inv = true
        ∧ obj2.phasePeak = some (q (provisionalSource obj (fluxArrayD obj))))
    ∧ ∀ (obj : TransientObject) (p : ℚ) (n : ℕ) (ops : List Op),
        obj.phasePeak = some p → runOps q (obj, n) ops = (obj, n) := by
  refine ⟨?_, ?_, ?_, ?_⟩
  · intro name sd ms days df mf obj diags h
    exact (init_ok_inv h).2.2.2.2.2.2.2.2
  · intro s ops h
    exact runOps_nonaccess h
  · intro obj src obj2 inv h h2
    exact access_fresh h h2
  · intro obj p n ops h
    exact runOps_cached h ops n

/-- Minimal one-epoch fixture used by the lazy-cache witnesses. -/
def tinySpec : Spectrum := [(0, 0)]

/-- The object constructed from the one-epoch fixture. -/
def tinyObj : TransientObject :=
  ⟨"T", [0], ["a"], ["c"], [tinySpec], [tinySpec], [0], none⟩

/-- The one-epoch object after its peak phase has been cached as `7`. -/
def tinyPeaked : TransientObject := { tinyObj with phasePeak := some 7 }

/-- The source returned by the first access on the one-epoch object under
the collaborator answering `7`. -/
def tinySource : TimeSeriesSource := ⟨[-7], [0], [[0]], some "T"⟩

/-- C5 witness: the cache facts evaluated on the one-epoch fixture with a
collaborator that always answers `7`. -/
theorem claim5_witness :
    tinyObj.phasePeak = none
    ∧ runOps (fun _ => 7) (tinyObj, 0) [Op.validate true] = (tinyObj, 0)
    ∧ tinyPeaked.phasePeak = some (7 : ℚ)
    ∧ runOps (fun _ => 7) (tinyPeaked, 1) [Op.accessSource, Op.validate false] =
        (tinyPeaked, 1) := by
  have c := claim5_phasePeak_lazy_cache (fun _ => 7)
  have h : TransientObject.init "T" [tinySpec] [tinySpec] [0] (some ["a"])
      (some ["c"]) = .ok (tinyObj, []) := by with_unfolding_all decide
  have h2 : accessSNCosmoSource (fun _ => 7) tinyObj =
      .ok (tinySource, tinyPeaked, true) := by with_unfolding_all decide
  exact ⟨c.1 _ _ _ _ _ _ _ _ h, c.2.1 _ _ (by decide),
    (c.2.2.1 _ _ _ _ rfl h2).2, c.2.2.2 _ 7 _ _ rfl⟩

/-- C6. Every successful access of `SNCosmoSource` returns a source whose
phase is the sorted days shifted down by the cached peak phase, whose
wavelength grid is the first mangled spectrum's wavelength column, whose
flux matrix has one row per epoch with the i-th written row equal to the
flux column of the i-th mangled spectrum, and which carries the object's
name. -/
theorem claim6_source_construction (q : TimeSeriesSource → ℚ)
    (obj : TransientObject) (src : TimeSeriesSource)
    (obj2 : TransientObject) (inv : Bool)
    (h : accessSNCosmoSource q obj = .ok (src, obj2, inv)) :
    obj2.phasePeak.isSome = true
    ∧ src.phase = obj.mjds.map (fun d => d - obj2.phasePeak.getD 0)
    ∧ src.wave = waveCol (obj.mangled_spectra.headD [])
    ∧ src.name = some obj.name
    ∧ src.flux.length = obj.mjds.length
    ∧ ∀ (i : ℕ) (sp : Spectrum), obj.mangled_spectra.get? i = some sp →
        src.flux.get? i = some (fluxCol sp) := by
  unfold accessSNCosmoSource at h
  split at h
  · injection h
  rename_i f heqb
  have hbuild := buildFluxArray_ok heqb
  split at h
  · injection h with h3
    injection h3 with hsrc h4
    injection h4 with hobj hinv
    subst hsrc
    subst hobj
    exact ⟨rfl, rfl, rfl, rfl, hbuild.1, hbuild.2⟩
  · rename_i p hp
    injection h with h3
    injection h3 with hsrc h4
    injection h4 with hobj hinv
    subst hsrc
    subst hobj
    rw [hp]
    exact ⟨rfl, rfl, rfl, rfl, hbuild.1, hbuild.2⟩

/-- C6 witness: the source construction evaluated on the one-epoch fixture
(first access, collaborator answering `7`). -/
theorem claim6_witness :
    tinyPeaked.phasePeak.isSome = true
    ∧ tinySource.phase =
        tinyObj.mjds.map (fun d => d - tinyPeaked.phasePeak.getD 0)
    ∧ tinySource.wave = waveCol (tinyObj.mangled_spectra.headD [])
    ∧ tinySource.name = some tinyObj.name := by
  have h : accessSNCosmoSource (fun _ => 7) tinyObj =
      .ok (tinySource, tinyPeaked, true) := by with_unfolding_all decide
  have c := claim6_source_construction (fun _ => 7) tinyObj tinySource
    tinyPeaked true h
  exact ⟨c.1, c.2.1, c.2.2.1, c.2.2.2.1⟩

lemma diffLengths_mem_diagAt {fw : List ℚ} {v : Bool} {k j : ℕ}
    {sp : Spectrum} :
    Diag.diffLengths j ∈ diagAt fw v k sp ↔
      j = k ∧ (waveCol sp).length ≠ fw.length := by
  unfold diagAt
  split_ifs with h1 h2 h3 <;> simp_all

lemma diffValues_mem_diagAt {fw : List ℚ} {v : Bool} {k j : ℕ}
    {sp : Spectrum} :
    Diag.diffValues j ∈ diagAt fw v k sp ↔
      j = k ∧ (waveCol sp).length = fw.length
        ∧ npAllclose (waveCol sp) fw = false := by
  unfold diagAt
  split_ifs with h1 h2 h3 <;> simp_all

lemma matched_mem_diagAt {fw : List ℚ} {v : Bool} {k j : ℕ} {sp : Spectrum} :
    Diag.matched j ∈ diagAt fw v k sp ↔
      j = k ∧ v = true ∧ (waveCol sp).length = fw.length
        ∧ npAllclose (waveCol sp) fw = true := by
  unfold diagAt
  split_ifs with h1 h2 h3 <;> simp_all

lemma mem_validateFrom {fw : List ℚ} {v : Bool} {d : Diag} :
    ∀ (l : List Spectrum) (i : ℕ),
      d ∈ validateFrom fw v i l ↔
        ∃ (k : ℕ) (sp : Spectrum), l.get? k = some sp
          ∧ d ∈ diagAt fw v (i + k) sp
  | [], i => by simp [validateFrom]
  | sp0 :: rest, i => by
      rw [validateFrom, List.mem_append, mem_validateFrom rest (i + 1)]
      constructor
      · rintro (h | ⟨k, sp, hget, hmem⟩)
        · exact ⟨0, sp0, rfl, by simpa using h⟩
        · exact ⟨k + 1, sp, by simpa using hget, by
            have : i + 1 + k = i + (k + 1) := by omega
            rwa [this] at hmem⟩
      · rintro ⟨k, sp, hget, hmem⟩
        cases k with
        | zero =>
            left
            simp only [List.get?] at hget
            injection hget with hsp
            subst hsp
            simpa using hmem
        | succ k =>
            right
            refine ⟨k, sp, by simpa using hget, ?_⟩
            have : i + 1 + k = i + (k + 1) := by omega
            rwa [this]

lemma validateWavelengths_isSome {spectra : List Spectrum} {v : Bool}
    (h : spectra ≠ []) : (validateWavelengths spectra v).isSome = true := by
  cases spectra with
  | nil => exact absurd rfl h
  | cons first rest => rfl

lemma init_ok_of_shape {name : String} {sd ms : List Spectrum}
    {days : List ℚ} {df mf : List String}
    (hsd : sd.length = days.length) (hms : ms.length = days.length)
    (hdf : df.length = days.length) (hmf : mf.length = days.length)
    (hne : ms ≠ []) :
    ∃ (obj : TransientObject) (diags : List Diag),
      TransientObject.init name sd ms days (some df) (some mf) =
        .ok (obj, diags) := by
  have hidx : ∀ i ∈ npArgsort days, i < days.length := fun i hi =>
    mem_npArgsort_lt hi
  have e1 : optSubscript (some df) (npArgsort days) =
      .ok ((npArgsort days).map fun i => df.getD i "") := by
    show npSubscript df (npArgsort days) = _
    unfold npSubscript
    rw [pyFancyIndex_eq_map df "" (npArgsort days)
      (fun i hi => hdf ▸ hidx i hi)]
  have e2 : optSubscript (some mf) (npArgsort days) =
      .ok ((npArgsort days).map fun i => mf.getD i "") := by
    show npSubscript mf (npArgsort days) = _
    unfold npSubscript
    rw [pyFancyIndex_eq_map mf "" (npArgsort days)
      (fun i hi => hmf ▸ hidx i hi)]
  have e3 : npSubscript sd (npArgsort days) =
      .ok ((npArgsort days).map fun i => sd.getD i []) := by
    unfold npSubscript
    rw [pyFancyIndex_eq_map sd [] (npArgsort days)
      (fun i hi => hsd ▸ hidx i hi)]
  have e4 : npSubscript ms (npArgsort days) =
      .ok ((npArgsort days).map fun i => ms.getD i []) := by
    unfold npSubscript
    rw [pyFancyIndex_eq_map ms [] (npArgsort days)
      (fun i hi => hms ▸ hidx i hi)]
  have e5 : npSubscript days (npArgsort days) =
      .ok ((npArgsort days).map fun i => days.getD i 0) := by
    unfold npSubscript
    rw [pyFancyIndex_eq_map days 0 (npArgsort days) hidx]
  have hso_ne : npArgsort days ≠ [] := by
    have hlen : (npArgsort days).length = days.length := by
      rw [(npArgsort_perm days).length_eq, List.length_range]
    have hdays : days.length ≠ 0 := by
      rw [← hms]
      simpa using hne
    intro hcontra
    rw [hcontra] at hlen
    exact hdays hlen.symm
  rcases hms2 : (npArgsort days).map (fun i => ms.getD i []) with _ | ⟨f2, r2⟩
  · exact absurd (List.map_eq_nil_iff.mp hms2) hso_ne
  rw [hms2] at e4
  refine ⟨⟨name, npArgsort days, (npArgsort days).map fun i => df.getD i "",
    (npArgsort days).map fun i => mf.getD i "",
    (npArgsort days).map fun i => sd.getD i [], f2 :: r2,
    (npArgsort days).map fun i => days.getD i 0, none⟩,
    validateFrom (waveCol f2) false 0 (f2 :: r2), ?_⟩
  simp only [TransientObject.init, e1, e2, e3, e4, e5, validateWavelengths]

/-- C3 counterexample: on an empty mangled-spectra sequence,
`validateWavelengths` raises an `IndexError` (modelled as `none`) at
`self.mangled_spectra[0]`, so it is not exception-free on every input. -/
theorem claim3_cex : validateWavelengths [] false = none := rfl

/-- C3 (amended to nonempty mangled-spectra sequences, the case the empty
sequence counterexample excludes).  On every nonempty sequence
`validateWavelengths` raises no exception; the diagnostics it reports are
characterized per index — a length-mismatch entry for exactly the indices
whose wavelength-column length differs from the first's, a value-mismatch
entry for exactly the indices matching in length but failing `np.allclose`,
and a confirmation entry exactly in verbose mode at agreeing indices; the
validation pass mutates no state; and every parallel-length construction
with a nonempty mangled-spectra list returns an object rather than
throwing, regardless of grid mismatches. -/
theorem claim3_validate_reports_only :
    (∀ (spectra : List Spectrum) (v : Bool), spectra ≠ [] →
        (validateWavelengths spectra v).isSome = true)
    ∧ (∀ (first : Spectrum) (rest : List Spectrum) (v : Bool)
          (diags : List Diag),
        validateWavelengths (first :: rest) v = some diags →
        ∀ j : ℕ,
          (Diag.diffLengths j ∈ diags ↔
            ∃ sp, (first :: rest).get? j = some sp
              ∧ (waveCol sp).length ≠ (waveCol first).length)
          ∧ (Diag.diffValues j ∈ diags ↔
            ∃ sp, (first :: rest).get? j = some sp
              ∧ (waveCol sp).length = (waveCol first).length
              ∧ npAllclose (waveCol sp) (waveCol first) = false)
          ∧ (Diag.matched j ∈ diags ↔
            v = true ∧ ∃ sp, (first :: rest).get? j = some sp
              ∧ (waveCol sp).length = (waveCol first).length
              ∧ npAllclose (waveCol sp) (waveCol first) = true))
    ∧ (∀ (q : TimeSeriesSource → ℚ) (s : TransientObject × ℕ) (v : Bool),
        step q s (.validate v) = s)
    ∧ ∀ (name : String) (sd ms : List Spectrum) (days : List ℚ)
        (df mf : List String),
        sd.length = days.length → ms.length = days.length →
        df.length = days.length → mf.length = days.length → ms ≠ [] →
        ∃ obj diags, TransientObject.init name sd ms days (some df)
          (some mf) = .ok (obj, diags) := by
  refine ⟨?_, ?_, ?_, ?_⟩
  · intro spectra v h
    exact validateWavelengths_isSome h
  · intro first rest v diags h j
    have hd : diags = validateFrom (waveCol first) v 0 (first :: rest) := by
      simp only [validateWavelengths] at h
      exact (Option.some.inj h).symm
    subst hd
    refine ⟨?_, ?_, ?_⟩
    · rw [mem_validateFrom]
      constructor
      · rintro ⟨k, sp, hget, hmem⟩
        rw [diffLengths_mem_diagAt] at hmem
        obtain ⟨hjk, hlen⟩ := hmem
        rw [Nat.zero_add] at hjk
        subst hjk
        exact ⟨sp, hget, hlen⟩
      · rintro ⟨sp, hget, hlen⟩
        exact ⟨j, sp, hget, diffLengths_mem_diagAt.mpr ⟨(Nat.zero_add j).symm,
          hlen⟩⟩
    · rw [mem_validateFrom]
      constructor
      · rintro ⟨k, sp, hget, hmem⟩
        rw [diffValues_mem_diagAt] at hmem
        obtain ⟨hjk, hlen, hcl⟩ := hmem
        rw [Nat.zero_add] at hjk
        subst hjk
        exact ⟨sp, hget, hlen, hcl⟩
      · rintro ⟨sp, hget, hlen, hcl⟩
        exact ⟨j, sp, hget, diffValues_mem_diagAt.mpr ⟨(Nat.zero_add j).symm,
          hlen, hcl⟩⟩
    · rw [mem_validateFrom]
      constructor
      · rintro ⟨k, sp, hget, hmem⟩
        rw [matched_mem_diagAt] at hmem
        obtain ⟨hjk, hv, hlen, hcl⟩ := hmem
        rw [Nat.zero_add] at hjk
        subst hjk
        exact ⟨hv, sp, hget, hlen, hcl⟩
      · rintro ⟨hv, sp, hget, hlen, hcl⟩
        exact ⟨j, sp, hget, matched_mem_diagAt.mpr ⟨(Nat.zero_add j).symm,
          hv, hlen, hcl⟩⟩
  · intro q s v
    rfl
  · intro name sd ms days df mf hsd hms hdf hmf hne
    exact init_ok_of_shape hsd hms hdf hmf hne

/-- The spec's own mismatch example: wavelength grids `[4000, 5000, 6000]`
and `[4000, 5000]`. -/
def mismatchLong : Spectrum := [(4000, 1), (5000, 2), (6000, 3)]

/-- The short spectrum of the mismatch example. -/
def mismatchShort : Spectrum := [(4000, 1), (5000, 2)]

/-- C3 witness: the nonempty-input facts of the amended claim evaluated on
the spec's length-mismatch example, on which construction still succeeds. -/
theorem claim3_witness :
    (validateWavelengths [mismatchLong, mismatchShort] false).isSome = true
    ∧ Diag.diffLengths 1 ∈ [Diag.diffLengths 1]
    ∧ ∃ obj diags, TransientObject.init "SN" [mismatchLong, mismatchShort]
        [mismatchLong, mismatchShort] [1, 2] (some ["a", "b"])
        (some ["c", "d"]) = .ok (obj, diags) := by
  have c := claim3_validate_reports_only
  have hval : validateWavelengths [mismatchLong, mismatchShort] false =
      some [Diag.diffLengths 1] := by with_unfolding_all decide
  refine ⟨c.1 _ _ (by decide), ?_, ?_⟩
  · refine ((c.2.1 mismatchLong [mismatchShort] false [Diag.diffLengths 1]
      hval 1).1).mpr ⟨mismatchShort, rfl, by decide⟩
  · exact c.2.2.2 "SN" _ _ [1, 2] ["a", "b"] ["c", "d"] (by decide)
      (by decide) (by decide) (by decide) (by decide)

/-- A spectrum whose wavelength column `[5000, 4000]` is strictly
decreasing. -/
def decreasingSpec : Spectrum := [(5000, 1), (4000, 2)]

/-- C2 (code-bug evidence).  On mangled spectra that share an identical but
strictly decreasing wavelength grid, `validateWavelengths` emits no
diagnostic at all, although its own docstring says it checks that "the
wavelengths are in increasing order": the monotonicity check the spec
describes is absent from the code. -/
theorem claim2_no_monotonicity_check :
    validateWavelengths [decreasingSpec, decreasingSpec] false = some []
    ∧ ¬ List.Chain' (· < ·) (waveCol decreasingSpec) := by
  constructor
  · with_unfolding_all decide
  · intro h
    rw [show waveCol decreasingSpec = [(5000 : ℚ), 4000] from rfl] at h
    exact absurd (List.chain'_cons.mp h).1 (by decide)

/-- C9. With an empty mangled-spectra sequence, `validateWavelengths`
raises an `IndexError` at `self.mangled_spectra[0]`, so constructing from
all-empty parallel arrays fails with that exception instead of completing
with soft diagnostics. -/
theorem claim9_empty_spectra_raise :
    (∀ v : Bool, validateWavelengths [] v = none)
    ∧ ∀ name : String,
        TransientObject.init name [] [] [] (some []) (some []) =
          .error PyErr.indexError := by
  constructor
  · intro v
    rfl
  · intro name
    rfl

/-- C10. Omitting `data_fnames` or `mangled_fnames` (their declared `None`
defaults) always makes the constructor raise, because both are subscripted
with the sort permutation unconditionally; in particular an omitted
`data_fnames` raises the `TypeError` of subscripting `None`. -/
theorem claim10_none_fnames_raise (name : String) (sd ms : List Spectrum)
    (days : List ℚ) (df mf : Option (List String)) :
    ((df = none ∨ mf = none) →
      ∃ e, TransientObject.init name sd ms days df mf = .error e)
    ∧ (df = none →
      TransientObject.init name sd ms days df mf = .error PyErr.typeError) := by
  constructor
  · intro h
    rcases h with h | h
    · subst h
      exact ⟨PyErr.typeError, by simp only [TransientObject.init, optSubscript]⟩
    · subst h
      cases h1 : optSubscript df (npArgsort days) with
      | error e => exact ⟨e, by simp only [TransientObject.init, h1]⟩
      | ok l =>
          exact ⟨PyErr.typeError, by
            simp only [TransientObject.init, h1]
            simp only [optSubscript]⟩
  · intro h
    subst h
    simp only [TransientObject.init, optSubscript]

/-- C10 witness: constructing with both filename arrays omitted raises the
`TypeError` of subscripting `None`. -/
theorem claim10_witness :
    TransientObject.init "SN2007uy" [] [] [] none none =
      .error PyErr.typeError :=
  (claim10_none_fnames_raise "SN2007uy" [] [] [] none none).2 rfl

lemma fracAux (f : List Char) :
    (f.all (fun c => c.isDigit || c == '.') && decide (List.count '.' f = 0))
      = f.all Char.isDigit := by
  induction f with
  | nil => rfl
  | cons c f ih =>
      by_cases hdot : c = '.'
      · subst hdot
        have h1 : Char.isDigit '.' = false := by decide
        simp [h1, List.count_cons]
      · have hbeq : (c == '.') = false := beq_eq_false_iff_ne.mpr hdot
        simp only [List.all_cons, List.count_cons, hbeq, Bool.false_eq_true,
          if_false, Nat.add_zero, Bool.or_false, Bool.and_assoc, ih]

lemma anyAux (f : List Char) (h : f.all Char.isDigit = true) :
    f.any Char.isDigit = !f.isEmpty := by
  cases f with
  | nil => rfl
  | cons c f =>
      simp only [List.all_cons, Bool.and_eq_true] at h
      simp [h.1]

lemma shapeAux (cs : List Char) :
    (if (cs.dropWhile Char.isDigit).isEmpty then true
     else if (cs.dropWhile Char.isDigit).headD ' ' = '.' then
       (cs.dropWhile Char.isDigit).tail.all Char.isDigit
     else false)
      = (cs.all (fun c => c.isDigit || c == '.')
          && decide (cs.count '.' ≤ 1)) := by
  induction cs with
  | nil => rfl
  | cons c cs ih =>
      by_cases hc : c.isDigit = true
      · have hne : c ≠ '.' := fun h => by
          subst h
          exact absurd hc (by decide)
        have hbeq : (c == '.') = false := beq_eq_false_iff_ne.mpr hne
        simp only [List.dropWhile_cons, List.all_cons, List.count_cons, hc,
          if_true, hbeq, Bool.false_eq_true, if_false, Nat.add_zero,
          Bool.or_false, Bool.true_or, Bool.true_and, ih]
      · by_cases hdot : c = '.'
        · subst hdot
          have h1 : Char.isDigit '.' = false := by decide
          simp only [List.dropWhile_cons, List.all_cons, List.count_cons, h1,
            Bool.false_eq_true, if_false, List.isEmpty_cons, List.headD_cons,
            List.tail_cons, if_true, beq_self_eq_true, Bool.false_or,
            Bool.true_and, if_pos rfl]
          rw [show (decide (List.count '.' cs + 1 ≤ 1))
              = decide (List.count '.' cs = 0) from by
            simp [Nat.succ_le_succ_iff, Nat.le_zero]]
          exact (fracAux cs).symm
        · have hbeq : (c == '.') = false := beq_eq_false_iff_ne.mpr hdot
          have hcf : c.isDigit = false := by simpa using hc
          simp [List.dropWhile_cons, hcf, hdot, hbeq]

lemma boolIfCollapse (b : Bool) : (if b = true then true else false) = b := by
  cases b <;> simp

lemma pyFloatBody_isSome (cs : List Char) :
    (pyFloatBody cs).isSome = numericBody cs := by
  cases cs with
  | nil => rfl
  | cons c cs =>
      by_cases hc : c.isDigit = true
      · have hne : c ≠ '.' := fun h => by
          subst h
          exact absurd hc (by decide)
        have hbeq : (c == '.') = false := beq_eq_false_iff_ne.mpr hne
        simp only [pyFloatBody, numericBody, List.takeWhile_cons,
          List.dropWhile_cons, List.all_cons, List.any_cons, List.count_cons,
          hc, if_true, hbeq, Bool.false_eq_true, if_false, Nat.add_zero,
          Bool.or_false, Bool.true_or, Bool.and_true, Bool.true_and,
          List.isEmpty_cons, Bool.false_and, Bool.not_false,
          apply_ite Option.isSome, Option.isSome_some, Option.isSome_none,
          boolIfCollapse]
        exact shapeAux cs
      · by_cases hdot : c = '.'
        · subst hdot
          have h1 : Char.isDigit '.' = false := by decide
          simp only [pyFloatBody, numericBody, List.takeWhile_cons,
            List.dropWhile_cons, h1, Bool.false_eq_true, if_false,
            List.isEmpty_cons, List.isEmpty_nil, List.headD_cons,
            List.tail_cons, if_true, beq_self_eq_true, Bool.false_or,
            Bool.true_and, List.all_cons, List.any_cons, List.count_cons,
            apply_ite Option.isSome, Option.isSome_some, Option.isSome_none,
            boolIfCollapse]
          rw [show (decide (List.count '.' cs + 1 ≤ 1))
              = decide (List.count '.' cs = 0) from by
            simp [Nat.succ_le_succ_iff, Nat.le_zero]]
          rw [fracAux cs]
          cases hall : cs.all Char.isDigit with
          | true => simp [anyAux cs hall]
          | false => simp [hall]
        · have hbeq : (c == '.') = false := beq_eq_false_iff_ne.mpr hdot
          have hcf : c.isDigit = false := by simpa using hc
          simp [pyFloatBody, numericBody, List.takeWhile_cons,
            List.dropWhile_cons, hcf, hdot, hbeq]

lemma pyFloat_isSome (s : String) : (pyFloat s).isSome = isNumericStr s := by
  unfold pyFloat isNumericStr
  generalize pyTrim s.toList = cs
  split
  · exact pyFloatBody_isSome _
  · rw [Option.isSome_map']
    exact pyFloatBody_isSome _
  · rename_i h1 h2
    have hstrip : ∀ l : List Char, (∀ r, l ≠ '+' :: r) → (∀ r, l ≠ '-' :: r) →
        stripSign l = l := by
      intro l hp hm
      unfold stripSign
      split
      · rename_i r
        exact absurd rfl (hp r)
      · rename_i r
        exact absurd rfl (hm r)
      · rfl
    rw [hstrip cs (fun r hr => h1 r hr) (fun r hr => h2 r hr)]
    exact pyFloatBody_isSome _

/-- C4.  `parse_mjds` is the pure function splitting the filename on the
literal `_mangled`, keeping the prefix, and parsing the prefix's trailing
underscore-delimited token as a float; it maps the documented example to
`20071215.0`, and it raises a parse error exactly when that token is not
numeric. -/
theorem claim4_parse_mjds :
    parse_mjds "SN2007uy_20071215_mangled.txt" = some (20071215 : ℚ)
    ∧ (∀ fname : String, parse_mjds fname = pyFloat (mangledDayToken fname))
    ∧ (∀ fname : String,
        (parse_mjds fname).isSome = isNumericStr (mangledDayToken fname)) := by
  refine ⟨?_, fun fname => rfl, fun fname => ?_⟩
  · decide
  · exact pyFloat_isSome (mangledDayToken fname)

lemma mapM_phot_empty (g : String → List String)
    (r : String → List (ℚ × ℚ × ℚ)) (d : String) :
    ∀ fl : List String, (∀ filt ∈ fl, survivingFiles g d filt = []) →
      fl.mapM (fun filt => (survivingFiles g d filt).mapM fun fn =>
          photometryTable r fn filt none)
        = Except.ok (fl.map fun _ => ([] : List (List PhotRow))) := by
  intro fl
  induction fl with
  | nil => intro h; rfl
  | cons filt fl ih =>
      intro h
      have hs : survivingFiles g d filt = [] := h filt (by simp)
      simp only [List.mapM_cons, hs, List.mapM_nil, List.map_cons,
        ih fun o ho => h o (by simp [ho])]
      rfl

/-- C7 counterexample filesystem: band subdirectory `pd/B` holds no files
while `pd/V` holds one. -/
def cexGlob : String → List String :=
  fun s => if s = "pd/V" then ["pd/V/f1.DAT"] else []

/-- C7 counterexample reader: every file holds the single row `(1, 2, 3)`. -/
def cexRead : String → List (ℚ × ℚ × ℚ) := fun _ => [(1, 2, 3)]

/-- C7 counterexample: a `getPhotometry` call in which one requested filter
(`B`) yields zero files still succeeds — no index error is raised — because
the other filter contributes a table; the index error occurs only when the
collected table list is empty. -/
theorem claim7_cex :
    survivingFiles cexGlob "pd" "B" = []
    ∧ getPhotometry cexGlob cexRead "pd" ["B", "V"] =
        .ok [⟨1, 2, 3, "bessellV"⟩] := by
  constructor
  · rfl
  · decide

/-- C7 (amended).  When every requested filter yields zero surviving files
— in particular when the filter list is empty — the subscript
`photometryTables[0]` on the empty collection raises an `IndexError`. -/
theorem claim7_all_empty_index_error (g : String → List String)
    (r : String → List (ℚ × ℚ × ℚ)) (d : String) (fl : List String)
    (h : ∀ filt ∈ fl, survivingFiles g d filt = []) :
    getPhotometry g r d fl = .error PyErr.indexError := by
  unfold getPhotometry
  rw [mapM_phot_empty g r d fl h]
  have hflat : (fl.map fun _ => ([] : List (List PhotRow))).flatten = [] := by
    clear h
    induction fl with
    | nil => rfl
    | cons filt fl ih =>
        simp only [List.map_cons, List.flatten_cons, List.nil_append]
        exact ih
  simp only [hflat]
  rfl

/-- C7 witness: the amended claim evaluated on an empty filesystem and one
requested band. -/
theorem claim7_witness :
    getPhotometry (fun _ => []) (fun _ => []) "pd" ["B"] =
      .error PyErr.indexError :=
  claim7_all_empty_index_error (fun _ => []) (fun _ => []) "pd" ["B"]
    (fun _ _ => rfl)

/-- C8. Over two bands with one surviving file each (no magnitude-marker
names), `getPhotometry` returns one combined table, the concatenation of
the two files' rows tagged with the default mapping's name for their source
filter, so its row count is the sum of the two files' row counts; a band
key outside the mapping raises a `KeyError`; and `photometryTable` honours
an overriding mapping when one is passed. -/
theorem claim8_photometry_assembly (g : String → List String)
    (r : String → List (ℚ × ℚ × ℚ)) (d b1 b2 f1 f2 m1 m2 : String)
    (h1 : survivingFiles g d b1 = [f1]) (h2 : survivingFiles g d b2 = [f2])
    (hm1 : lookupDict defaultFilterDict b1 = some m1)
    (hm2 : lookupDict defaultFilterDict b2 = some m2) :
    getPhotometry g r d [b1, b2] =
        .ok ((r f1).map (fun x => ⟨x.1, x.2.1, x.2.2, m1⟩)
          ++ (r f2).map fun x => ⟨x.1, x.2.1, x.2.2, m2⟩)
    ∧ (∀ rows : List PhotRow, getPhotometry g r d [b1, b2] = .ok rows →
        rows.length = (r f1).length + (r f2).length)
    ∧ (∀ b f : String, survivingFiles g d b = [f] →
        lookupDict defaultFilterDict b = none →
        getPhotometry g r d [b] = .error PyErr.keyError)
    ∧ ∀ (dict : List (String × String)) (fn b bn : String),
        lookupDict dict b = some bn →
        photometryTable r fn b (some dict) =
          .ok ((r fn).map fun x => ⟨x.1, x.2.1, x.2.2, bn⟩) := by
  have e1 : photometryTable r f1 b1 none =
      .ok ((r f1).map fun x => ⟨x.1, x.2.1, x.2.2, m1⟩) := by
    unfold photometryTable
    simp only [Option.getD_none, hm1]
  have e2 : photometryTable r f2 b2 none =
      .ok ((r f2).map fun x => ⟨x.1, x.2.1, x.2.2, m2⟩) := by
    unfold photometryTable
    simp only [Option.getD_none, hm2]
  have main : getPhotometry g r d [b1, b2] =
      .ok ((r f1).map (fun x => ⟨x.1, x.2.1, x.2.2, m1⟩)
        ++ (r f2).map fun x => ⟨x.1, x.2.1, x.2.2, m2⟩) := by
    unfold getPhotometry
    simp only [List.mapM_cons, List.mapM_nil, h1, h2, e1, e2]
    simp only [bind, Except.bind, pure, Except.pure]
    simp [List.flatten]
  refine ⟨main, ?_, ?_, ?_⟩
  · intro rows hr
    rw [main] at hr
    injection hr with hrows
    subst hrows
    simp
  · intro b f hs hnone
    have e3 : photometryTable r f b none = .error PyErr.keyError := by
      unfold photometryTable
      simp only [Option.getD_none, hnone]
    unfold getPhotometry
    simp only [List.mapM_cons, List.mapM_nil, hs, e3]
    rfl
  · intro dict fn b bn hl
    unfold photometryTable
    simp only [Option.getD_some, hl]

/-- C8 witness filesystem: one file per band directory. -/
def phGlob : String → List String :=
  fun s => if s = "pd/B" then ["pd/B/b.DAT"]
    else if s = "pd/V" then ["pd/V/v.DAT"] else []

/-- C8 witness reader: the `B` file has one row, the `V` file two rows. -/
def phRead : String → List (ℚ × ℚ × ℚ) :=
  fun fn => if fn = "pd/B/b.DAT" then [(1, 10, 1)]
    else [(2, 20, 2), (3, 30, 3)]

/-- C8 witness: the two-band assembly evaluated on the concrete filesystem:
three combined rows (1 + 2), tagged `bessellB` and `bessellV`. -/
theorem claim8_witness :
    getPhotometry phGlob phRead "pd" ["B", "V"] =
      .ok [⟨1, 10, 1, "bessellB"⟩, ⟨2, 20, 2, "bessellV"⟩,
        ⟨3, 30, 3, "bessellV"⟩] := by
  have c := claim8_photometry_assembly phGlob phRead "pd" "B" "V"
    "pd/B/b.DAT" "pd/V/v.DAT" "bessellB" "bessellV" (by decide) (by decide)
    (by decide) (by decide)
  exact c.1

end CalibrateSpectra
